import Mathlib

/-!
Verification of the effect-http core: schema-driven request/response codec,
path matcher, response-variant model, handler registry exhaustiveness
checks, and the error-kind status table.  Definitions are shallow
embeddings of the TypeScript source (`src/internal/utils.ts`,
`src/Utils.ts`); parts of the runtime that the repository exposes only
through its tests are modelled from the specification and marked as such.
-/

namespace EffectHttp

/-- JSON-ish wire/typed values manipulated by the schema codec.
`vUndefined` models the JavaScript `undefined`. -/
inductive Value where
  | vUndefined : Value
  | vStr : String → Value
  | vNum : Int → Value
  | vObj : List (String × Value) → Value
deriving Repr

/-- Shallow AST of the `@effect/schema` schemas the endpoints use.
A struct field is `(name, schema, optional?)`. -/
inductive SchemaAST where
  | unknown : SchemaAST
  | string : SchemaAST
  | number : SchemaAST
  | literal : Nat → SchemaAST
  | record : SchemaAST
  | struct : List (String × SchemaAST × Bool) → SchemaAST
  | union : List SchemaAST → SchemaAST
deriving Repr

/-- `IgnoredSchemaId` sentinel: a request-field schema is either a real
schema or the ignored marker (`none`). -/
abbrev SchemaOrIgnored := Option SchemaAST

/-- Embeds `getSchema` from `src/internal/utils.ts`: replace the ignored
marker by the supplied default schema (`Schema.unknown` by default). -/
def getSchema (input : SchemaOrIgnored) (dflt : SchemaAST := SchemaAST.unknown) :
    SchemaAST :=
  match input with
  | none => dflt
  | some s => s

/-- A full response declaration `{status, content?, headers?}` from
`effect-http/Api`; absent content/headers carry the ignored marker. -/
structure ResponseSchemaFull where
  status : Nat
  content : SchemaOrIgnored
  headers : SchemaOrIgnored
deriving Repr

/-- The three syntactic forms an endpoint's `response` declaration takes:
a plain schema, one full shape, or an array of full shapes. -/
inductive ResponseDecl where
  | plain : SchemaAST → ResponseDecl
  | full : ResponseSchemaFull → ResponseDecl
  | fullArray : List ResponseSchemaFull → ResponseDecl
deriving Repr

/-- The struct built for one full response shape inside
`createResponseSchema`. -/
def responseFullToStruct (r : ResponseSchemaFull) : SchemaAST :=
  SchemaAST.struct
    [("status", SchemaAST.literal r.status, false),
     ("content", getSchema r.content, false),
     ("headers", getSchema r.headers SchemaAST.record, false)]

/-- Embeds `createResponseSchema` from `src/internal/utils.ts`: a plain
schema is returned unchanged; otherwise the (array of) full shapes is
turned into a union of structs with a literal `status`, the declared
`content` schema (`Schema.unknown` when ignored) and the declared
`headers` schema (a string-to-string record when ignored). -/
def createResponseSchema (d : ResponseDecl) : SchemaAST :=
  match d with
  | .plain s => s
  | .full r => SchemaAST.union [responseFullToStruct r]
  | .fullArray rs => SchemaAST.union (rs.map responseFullToStruct)

/-- One normalized response variant keyed by status. -/
structure ResponseVariant where
  status : Nat
  content : SchemaAST
  headers : SchemaAST
deriving Repr

/-- Modelled from the spec: the server/client pipeline around
`createResponseSchema` (missing from `src/`) views the endpoint's
response declaration as an ordered set of status-keyed variants, a plain
schema counting as one implicit-200 variant. -/
def responseVariants (d : ResponseDecl) : List ResponseVariant :=
  match d with
  | .plain s => [⟨200, s, SchemaAST.record⟩]
  | .full r => [⟨r.status, getSchema r.content, getSchema r.headers SchemaAST.record⟩]
  | .fullArray rs =>
      rs.map (fun r => ⟨r.status, getSchema r.content, getSchema r.headers SchemaAST.record⟩)

/-- Modelled from the spec: the schema engine is an external collaborator
(§6) of which the core only needs `decode`/`encode` returning a typed
value or a structured failure.  The schemas in this AST carry no
transformation, so both directions are one structural validator that
rebuilds the value.  Struct fields are consumed in declaration order;
optional fields may be absent, required ones must be present; a union
validates with its first matching member. -/
def validateS : SchemaAST → Value → Except String Value
  | .unknown, v => .ok v
  | .string, .vStr s => .ok (.vStr s)
  | .string, _ => .error "expected a string"
  | .number, .vNum n => .ok (.vNum n)
  | .number, _ => .error "expected a number"
  | .literal n, .vNum m =>
      if m = (n : Int) then .ok (.vNum m) else .error "literal mismatch"
  | .literal _, _ => .error "literal mismatch"
  | .record, .vObj l =>
      if l.all (fun kv => match kv.2 with | .vStr _ => true | _ => false) then
        .ok (.vObj l)
      else .error "expected string values"
  | .record, _ => .error "expected a record"
  | .struct [], .vObj [] => .ok (.vObj [])
  | .struct [], .vObj (_ :: _) => .error "unexpected field"
  | .struct ((k, _, opt) :: fields), .vObj [] =>
      if opt then validateS (.struct fields) (.vObj [])
      else .error ("missing required field " ++ k)
  | .struct ((k, s, opt) :: fields), .vObj ((k', v) :: rest) =>
      if k' = k then
        match validateS s v, validateS (.struct fields) (.vObj rest) with
        | .ok w, .ok (.vObj ws) => .ok (.vObj ((k, w) :: ws))
        | .ok _, .ok _ => .error "invalid struct result"
        | .error e, _ => .error e
        | _, .error e => .error e
      else if opt then validateS (.struct fields) (.vObj ((k', v) :: rest))
      else .error ("missing required field " ++ k)
  | .struct _, _ => .error "expected an object"
  | .union [], _ => .error "no union member matched"
  | .union (s :: rest), v =>
      match validateS s v with
      | .ok w => .ok w
      | .error _ => validateS (.union rest) v

/-- `Schema.encode`: the schemas here carry no transformation, so encoding
is the structural validator. -/
def encodeS : SchemaAST → Value → Except String Value := validateS

/-- `Schema.decode`: the schemas here carry no transformation, so decoding
is the structural validator. -/
def decodeS : SchemaAST → Value → Except String Value := validateS

/-- A request-field argument as `parse` receives it: either the
`IgnoredSchemaId` symbol used as a value, or a JavaScript value
(`Value.vUndefined` when the caller omitted the field). -/
inductive ArgValue where
  | marker : ArgValue
  | val : Value → ArgValue
deriving Repr

/-- A field-tagged request encode failure
(`ClientError.RequestEncodeError`). -/
structure RequestEncodeError where
  location : String
  error : String
deriving Repr

/-- Embeds `parse` from `src/internal/utils.ts`: a value equal to the
`IgnoredSchemaId` marker short-circuits to success; any other value is
run through the field encoder, errors mapped by `onError`. -/
def parse (a : ArgValue) (encode : Value → Except String Value)
    (onError : String → RequestEncodeError) : Except RequestEncodeError ArgValue :=
  match a with
  | .marker => .ok .marker
  | .val v => ((encode v).map ArgValue.val).mapError onError

/-- The four request-field schemas of an endpoint
(`Endpoint.schemas.request`); the ignored marker means the field is
absent from the endpoint contract. -/
structure RequestSchemas where
  query : SchemaOrIgnored
  params : SchemaOrIgnored
  body : SchemaOrIgnored
  headers : SchemaOrIgnored
deriving Repr

/-- The four request-field arguments handed to the encoder returned by
`createRequestEncoder` (a field the caller omits is `undefined`). -/
structure RequestArgs where
  query : ArgValue
  params : ArgValue
  body : ArgValue
  headers : ArgValue
deriving Repr

/-- Embeds `createRequestEncoder` from `src/internal/utils.ts`: each field
is encoded against `getSchema` of its declared schema (so an ignored
schema becomes `Schema.unknown`), errors tagged with the field name;
a missing argument object is replaced by the empty object. -/
def createRequestEncoder (rs : RequestSchemas) (optArgs : Option RequestArgs) :
    Except RequestEncodeError RequestArgs :=
  let args := optArgs.getD ⟨.val .vUndefined, .val .vUndefined, .val .vUndefined, .val .vUndefined⟩
  match parse args.query (encodeS (getSchema rs.query)) (fun e => ⟨"query", e⟩),
      parse args.params (encodeS (getSchema rs.params)) (fun e => ⟨"params", e⟩),
      parse args.body (encodeS (getSchema rs.body)) (fun e => ⟨"body", e⟩),
      parse args.headers (encodeS (getSchema rs.headers)) (fun e => ⟨"headers", e⟩) with
  | .ok q, .ok p, .ok b, .ok h => .ok ⟨q, p, b, h⟩
  | .error e, _, _, _ => .error e
  | _, .error e, _, _ => .error e
  | _, _, .error e, _ => .error e
  | _, _, _, .error e => .error e

/-- A raw fetch `Response` as far as `getResponseContent` inspects it:
the `Content-Length` and `Content-Type` headers (`none` models the
`null` returned for an absent header) and the raw body text. -/
structure RawResponse where
  contentLength : Option String
  contentType : Option String
  body : String
deriving Repr

/-- The outcome of `getResponseContent`: no content (`undefined`), the
body parsed as JSON, or the body as plain text. -/
inductive ResponseContent where
  | noContent : ResponseContent
  | json : String → ResponseContent
  | text : String → ResponseContent
deriving Repr, DecidableEq

/-- JavaScript `parseInt(s, 10)`: skip leading whitespace, accept an
optional sign, read the longest digit run; `none` models `NaN`. -/
def jsParseInt (s : String) : Option Int :=
  let cs := s.data.dropWhile (fun c => c = ' ' || c = '\t' || c = '\n' || c = '\r')
  let core : List Char → Option Nat := fun ds =>
    let digits := ds.takeWhile Char.isDigit
    if digits.isEmpty then none
    else some (digits.foldl (fun acc c => acc * 10 + (c.toNat - 48)) 0)
  match cs with
  | '-' :: rest => (core rest).map (fun n => -(n : Int))
  | '+' :: rest => (core rest).map (fun n => (n : Int))
  | _ => (core cs).map (fun n => (n : Int))

/-- JavaScript `s.startsWith(pre)` over the character lists. -/
def strStartsWith (s pre : String) : Bool :=
  pre.data.isPrefixOf s.data

/-- Embeds `getResponseContent` from `src/internal/utils.ts`: a truthy
`Content-Length` header parsing to `0` short-circuits to no content;
otherwise the body is parsed as JSON exactly when the `Content-Type`
header is a string starting with `application/json`, and returned as
text in every other case. -/
def getResponseContent (r : RawResponse) : ResponseContent :=
  let clZero : Bool :=
    match r.contentLength with
    | some cl => !(decide (cl = "")) && decide (jsParseInt cl = some 0)
    | none => false
  if clZero then .noContent
  else
    let isJson : Bool :=
      match r.contentType with
      | some ct => strStartsWith ct "application/json"
      | none => false
    if isJson then .json r.body else .text r.body

/-- One segment of a path template: a literal, a required parameter
`:name`, or an optional parameter `:name?`. -/
inductive PathSegment where
  | lit : String → PathSegment
  | param : String → PathSegment
  | opt : String → PathSegment
deriving Repr, DecidableEq

/-- Splitting accumulator: cut the character list at every slash. -/
def splitPathAux : List Char → List Char → List String
  | [], acc => [String.mk acc.reverse]
  | '/' :: rest, acc => String.mk acc.reverse :: splitPathAux rest []
  | c :: rest, acc => splitPathAux rest (c :: acc)

/-- Split a path on `/`, dropping empty segments. -/
def splitPath (p : String) : List String :=
  (splitPathAux p.data []).filter (fun s => !(s = ""))

/-- Classify one template segment by its leading `:` and trailing `?`
markers. -/
def parseSegment (s : String) : PathSegment :=
  match s.data with
  | ':' :: rest =>
      if rest.getLast? = some '?' then .opt (String.mk rest.dropLast)
      else .param (String.mk rest)
  | _ => .lit s

/-- Parse a whole path template into segments. -/
def parseTemplate (p : String) : List PathSegment :=
  (splitPath p).map parseSegment

/-- Modelled from the spec: the segment matching rule of the path matcher
(§4.2), whose implementation is missing from `src/`: literals must match
exactly, a required parameter consumes and binds one segment, an optional
parameter consumes one segment if present and is omitted otherwise,
leftover path segments or missing required segments mean no match. -/
def matchSegments : List PathSegment → List String →
    Option (List (String × String))
  | [], [] => some []
  | [], _ :: _ => none
  | .lit l :: tpl, s :: rest => if s = l then matchSegments tpl rest else none
  | .lit _ :: _, [] => none
  | .param n :: tpl, s :: rest => (matchSegments tpl rest).map ((n, s) :: ·)
  | .param _ :: _, [] => none
  | .opt n :: tpl, s :: rest => (matchSegments tpl rest).map ((n, s) :: ·)
  | .opt _ :: tpl, [] => matchSegments tpl []

/-- Modelled from the spec: `createParamsMatcher` (missing from `src/`,
exercised by the params-matcher tests) compiles a template and maps a
concrete URL path to the bindings of its parameter names, or signals no
match. -/
def createParamsMatcher (tpl : String) (url : String) :
    Option (List (String × String)) :=
  matchSegments (parseTemplate tpl) (splitPath url)

/-- One declared operation: id, method, path template, request schemas
and response declaration. -/
structure Endpoint where
  id : String
  method : String
  path : String
  request : RequestSchemas
  response : ResponseDecl
deriving Repr

/-- An Api as `src/Utils.ts` consumes it: the flat ordered sequence of
declared endpoints. -/
structure Api where
  endpoints : List Endpoint
deriving Repr

/-- The empty Api produced by `Http.api()`. -/
def apiEmpty : Api := ⟨[]⟩

/-- The status codes declared by a response declaration, in order. -/
def responseStatuses (d : ResponseDecl) : List Nat :=
  match d with
  | .plain _ => [200]
  | .full r => [r.status]
  | .fullArray rs => rs.map (fun r => r.status)

/-- Modelled from the spec: `Http.get`/`Http.post`/… (missing from
`src/`) extend an Api with one endpoint and fail at construction time on
the declaration errors of §7 that concern a single added endpoint: a
duplicate endpoint id or a duplicate response-variant status. -/
def addEndpoint (api : Api) (e : Endpoint) : Except String Api :=
  if e.id ∈ api.endpoints.map (fun x => x.id) then
    .error ("duplicate endpoint id " ++ e.id)
  else if (responseStatuses e.response).Nodup then
    .ok ⟨api.endpoints ++ [e]⟩
  else
    .error "duplicate response status codes"

/-- Build an Api from a sequence of endpoint declarations, failing on the
first declaration error. -/
def buildApi (es : List Endpoint) : Except String Api :=
  es.foldlM addEndpoint apiEmpty

/-- A server under construction: the Api and the ids already bound to a
handler. -/
structure ServerBuilder where
  api : Api
  handledIds : List String
deriving Repr

/-- Modelled from the spec: `Http.server` (missing from `src/`) starts a
builder with no handlers bound. -/
def server (api : Api) : ServerBuilder := ⟨api, []⟩

/-- Modelled from the spec: `Http.handle` (missing from `src/`, exercised
by the safe-guard test) binds a handler; it fails when the id names no
declared endpoint and when a handler is already bound for it. -/
def handle (sb : ServerBuilder) (id : String) : Except String ServerBuilder :=
  if id ∉ sb.api.endpoints.map (fun e => e.id) then
    .error ("operation " ++ id ++ " not found")
  else if id ∈ sb.handledIds then
    .error ("handler for " ++ id ++ " already bound")
  else
    .ok ⟨sb.api, sb.handledIds ++ [id]⟩

/-- Modelled from the spec: `Http.exhaustive` (missing from `src/`)
finalizes the builder, failing when some declared endpoint is unbound. -/
def exhaustive (sb : ServerBuilder) : Except String ServerBuilder :=
  if ∀ e ∈ sb.api.endpoints, e.id ∈ sb.handledIds then
    .ok sb
  else
    .error "unhandled endpoints"

/-- True when an `Except` result is the error case. -/
def isErr {ε α : Type} : Except ε α → Bool
  | .error _ => true
  | .ok _ => false

/-- Modelled from the spec: the fixed enumeration of declared error kinds
(`ApiError` tags): the four field decode failures, the business kinds,
the response encode failure, and the internal fault. -/
inductive ApiErrorTag where
  | invalidQueryError
  | invalidParamsError
  | invalidBodyError
  | invalidHeadersError
  | unauthorizedError
  | notFoundError
  | conflictError
  | invalidResponseError
  | internalServerError
deriving Repr, DecidableEq

/-- Modelled from the spec: `API_STATUS_CODES` (missing from `src/`,
exercised by the status-codes test), the fixed kind-to-status table. -/
def API_STATUS_CODES : ApiErrorTag → Nat
  | .invalidQueryError => 400
  | .invalidParamsError => 400
  | .invalidBodyError => 400
  | .invalidHeadersError => 400
  | .unauthorizedError => 401
  | .notFoundError => 404
  | .conflictError => 409
  | .invalidResponseError => 500
  | .internalServerError => 500

/-- The printed name of an error kind, used as the `error` field of the
error body. -/
def apiErrorTagName : ApiErrorTag → String
  | .invalidQueryError => "InvalidQueryError"
  | .invalidParamsError => "InvalidParamsError"
  | .invalidBodyError => "InvalidBodyError"
  | .invalidHeadersError => "InvalidHeadersError"
  | .unauthorizedError => "UnauthorizedError"
  | .notFoundError => "NotFoundError"
  | .conflictError => "ConflictError"
  | .invalidResponseError => "InvalidResponseError"
  | .internalServerError => "InternalServerError"

/-- The client-observed rendering of a failed handler: a status and the
error body fields. -/
structure ErrorResponse where
  status : Nat
  errorName : String
  details : String
deriving Repr, DecidableEq

/-- Modelled from the spec: the server renders a handler failure of kind
`tag` with detail `details` as status `API_STATUS_CODES tag` and body
fields `error` and `details` (§4.6). -/
def serverRenderError (tag : ApiErrorTag) (details : String) : ErrorResponse :=
  ⟨API_STATUS_CODES tag, apiErrorTagName tag, details⟩

/-- The inverse of `apiErrorTagName`, used by the client. -/
def apiErrorTagOfName (s : String) : Option ApiErrorTag :=
  if s = "InvalidQueryError" then some .invalidQueryError
  else if s = "InvalidParamsError" then some .invalidParamsError
  else if s = "InvalidBodyError" then some .invalidBodyError
  else if s = "InvalidHeadersError" then some .invalidHeadersError
  else if s = "UnauthorizedError" then some .unauthorizedError
  else if s = "NotFoundError" then some .notFoundError
  else if s = "ConflictError" then some .conflictError
  else if s = "InvalidResponseError" then some .invalidResponseError
  else if s = "InternalServerError" then some .internalServerError
  else none

/-- Modelled from the spec: the client reconstructs a typed error from the
raw status/body pair through the same fixed table (§4.6). -/
def clientParseError (r : ErrorResponse) : Option (ApiErrorTag × String) :=
  match apiErrorTagOfName r.errorName with
  | some tag => if API_STATUS_CODES tag = r.status then some (tag, r.details) else none
  | none => none

/-- A response variant as the pipeline sees it: the declared status, and
the content and headers sub-schemas, each possibly absent. -/
structure ResponseVariantSchemas where
  status : Nat
  content : SchemaOrIgnored
  headers : SchemaOrIgnored
deriving Repr

/-- The status-keyed set of variants an endpoint response declaration
normalizes to (a plain schema is the single implicit-200 variant whose
content is the schema itself). -/
def responseVariantsOf (d : ResponseDecl) : List ResponseVariantSchemas :=
  match d with
  | .plain s => [⟨200, some s, none⟩]
  | .full r => [⟨r.status, r.content, r.headers⟩]
  | .fullArray rs => rs.map (fun r => ⟨r.status, r.content, r.headers⟩)

/-- A handler output for the response pipeline: an optional status (it
may be omitted when the endpoint declares a single variant), and optional
content and headers values. -/
structure HandlerOutput where
  status : Option Nat
  content : Option Value
  headers : Option Value
deriving Repr

/-- The encoded wire response. -/
structure EncodedResponse where
  status : Nat
  content : Option Value
  headers : Option Value
deriving Repr

/-- Modelled from the spec: the server response pipeline (§4.4, missing
from `src/`): pick the handler status (implied when exactly one variant
is declared, required otherwise), select the variant declared with that
status (an undeclared status is an encode failure), then encode the
selected content and headers sub-schemas, an absent sub-schema meaning
no content or empty headers. -/
def encodeContentPart (sch : SchemaOrIgnored) (val : Option Value) :
    Except String (Option Value) :=
  match sch with
  | none => .ok none
  | some s =>
      match val with
      | some c => (encodeS s c).map some
      | none => .error "required part missing"

/-- Modelled from the spec: pick the handler status (implied when exactly
one variant is declared, required otherwise). -/
def selectStatus (variants : List ResponseVariantSchemas)
    (out : HandlerOutput) : Except String Nat :=
  match out.status, variants with
  | some s, _ => .ok s
  | none, [v] => .ok v.status
  | none, _ => .error "status field required"

def encodeResponse (variants : List ResponseVariantSchemas)
    (out : HandlerOutput) : Except String EncodedResponse :=
  match selectStatus variants out with
  | .error e => .error e
  | .ok status =>
      match variants.find? (fun v => v.status = status) with
      | none => .error "status code not declared"
      | some v =>
          match encodeContentPart v.content out.content,
              encodeContentPart v.headers out.headers with
          | .ok c, .ok h => .ok ⟨status, c, h⟩
          | .error e, _ => .error e
          | _, .error e => .error e

/-- JavaScript property assignment on an object literal: update the value
in place when the key exists, append otherwise. -/
def objAssign {α : Type} (o : List (String × α)) (k : String) (v : α) :
    List (String × α) :=
  if o.any (fun kv => kv.1 = k) then
    o.map (fun kv => match kv with | (k1, v1) => if k1 = k then (k, v) else (k1, v1))
  else o ++ [(k, v)]

/-- JavaScript object spread `‹base with data spread onto it›`: assign
the entries of `data` onto `base` in order. -/
def objSpread {α : Type} (base data : List (String × α)) :
    List (String × α) :=
  data.foldl (fun acc kv => objAssign acc kv.1 kv.2) base

/-- The response constructor `responseUtil` derives for the declared
status `s`: `data` spread onto the object holding only `status`. -/
def responseConstructor (s : Nat) (data : List (String × Value)) :
    List (String × Value) :=
  objSpread [("status", Value.vNum (s : Int))] data

/-- The object of response constructors built by the `reduce` inside
`responseUtil`: one entry named `response` followed by the status digits
per full response shape, later same-named entries overriding. -/
def responseUtilObj (rs : List ResponseSchemaFull) :
    List (String × (List (String × Value) → List (String × Value))) :=
  rs.foldl
    (fun obj r => objAssign obj ("response" ++ toString r.status)
      (responseConstructor r.status))
    []

/-- Embeds `responseUtil` from `src/Utils.ts`: find the endpoint by id
(an unknown id throws), return the empty object when the response is a
plain schema, and otherwise one `response‹status›` constructor per
declared full response shape. -/
def responseUtil (api : Api) (id : String) :
    Except String (List (String × (List (String × Value) → List (String × Value)))) :=
  match api.endpoints.find? (fun e => e.id = id) with
  | none => .error ("Endpoint " ++ id ++ " not found")
  | some endpoint =>
      match endpoint.response with
      | .plain _ => .ok []
      | .full r => .ok (responseUtilObj [r])
      | .fullArray rs => .ok (responseUtilObj rs)

/-- JavaScript property access on an object literal: the value stored
under the first occurrence of the key. -/
def objLookup {α : Type} (o : List (String × α)) (k : String) : Option α :=
  match o with
  | [] => none
  | (k2, v) :: rest => if k2 = k then some v else objLookup rest k

/-- An ok result of the validator returns the input value unchanged: the
schemas carry no transformation, so validation rebuilds what it reads. -/
theorem validateS_ok_eq (s : SchemaAST) (v w : Value)
    (h : validateS s v = .ok w) : w = v := by
  induction s, v using validateS.induct generalizing w <;>
    first
      | (simp_all [validateS]; done)
      | (rename_i hc; simp only [validateS] at h; simp [hc] at h
         try simp_all)

/-- Evaluation fact used when characterizing the no-content branch: the
empty string does not parse to an integer. -/
theorem jsParseInt_empty : jsParseInt "" = none := rfl

/-- C1: the compiled matcher maps a concrete URL path to the bindings of
the template parameters, omitting unbound optional parameters, and
signals no match otherwise: the template of literals only matches itself
with the empty binding, a required parameter binds one segment, an
optional one binds only when a segment is present, and extra or missing
segments mean no match. -/
theorem c1_path_matcher :
    createParamsMatcher "/users" "/users" = some [] ∧
    createParamsMatcher "/users" "/users/hello" = none ∧
    createParamsMatcher "/users/:name" "/users/hello" = some [("name", "hello")] ∧
    createParamsMatcher "/users/:name" "/users" = none ∧
    createParamsMatcher "/users/:name/:another?" "/users/hello" = some [("name", "hello")] ∧
    createParamsMatcher "/users/:name/:another?" "/users/hello/world" =
      some [("name", "hello"), ("another", "world")] ∧
    createParamsMatcher "/users/:name/hello/:another?" "/users/test/hello/another" =
      some [("name", "test"), ("another", "another")] ∧
    (∀ s ss, matchSegments [] (s :: ss) = none) ∧
    (∀ n tpl, matchSegments (.param n :: tpl) [] = none) ∧
    (∀ l tpl, matchSegments (.lit l :: tpl) [] = none) := by
  refine ⟨by decide, by decide, by decide, by decide, by decide, by decide,
    by decide, ?_, ?_, ?_⟩ <;> (intros; rfl)

/-- C2: the response pipeline normalizes a declared response to
status-keyed variants: a plain schema is returned unchanged by
`createResponseSchema` and counts as the single implicit-200 variant,
while full response shapes each become a struct requiring the literal
declared status, the declared content schema (unconstrained when
absent) and the declared headers schema (a string-to-string record when
absent); a single full shape is treated as the one-element array. -/
theorem c2_response_normalization :
    (∀ s, createResponseSchema (.plain s) = s ∧
        responseVariantsOf (.plain s) = [⟨200, some s, none⟩]) ∧
    (∀ rs, createResponseSchema (.fullArray rs) =
        SchemaAST.union (rs.map (fun r =>
          SchemaAST.struct
            [("status", SchemaAST.literal r.status, false),
             ("content",
               (match r.content with | none => SchemaAST.unknown | some c => c),
               false),
             ("headers",
               (match r.headers with | none => SchemaAST.record | some h => h),
               false)])) ∧
        responseVariantsOf (.fullArray rs) =
          rs.map (fun r => ⟨r.status, r.content, r.headers⟩)) ∧
    (∀ r, createResponseSchema (.full r) = createResponseSchema (.fullArray [r]) ∧
        responseVariantsOf (.full r) = responseVariantsOf (.fullArray [r])) :=
  ⟨fun _ => ⟨rfl, rfl⟩, fun _ => ⟨rfl, rfl⟩, fun _ => ⟨rfl, rfl⟩⟩

/-- C6: the client content extraction returns no content exactly when a
`Content-Length` header is present and parses to zero; otherwise it
parses the body as JSON exactly when the `Content-Type` header is a
string starting with `application/json`, and returns the body as plain
text in every other case. -/
theorem c6_response_content (r : RawResponse) :
    (getResponseContent r = .noContent ↔
        ∃ cl, r.contentLength = some cl ∧ jsParseInt cl = some 0) ∧
    ((∀ cl, r.contentLength = some cl → jsParseInt cl ≠ some 0) →
      ((∃ ct, r.contentType = some ct ∧ strStartsWith ct "application/json" = true) →
          getResponseContent r = .json r.body) ∧
      ((∀ ct, r.contentType = some ct → strStartsWith ct "application/json" = false) →
          getResponseContent r = .text r.body)) := by
  obtain ⟨cl, ct, body⟩ := r
  cases cl with
  | none =>
      constructor
      · constructor
        · intro h
          simp [getResponseContent] at h
          split at h <;> simp_all
        · rintro ⟨c, hc, -⟩; cases hc
      · intro _
        constructor
        · rintro ⟨c, hc, hs⟩
          cases hc
          simp [getResponseContent, hs]
        · intro hct
          cases ct with
          | none => simp [getResponseContent]
          | some c => simp [getResponseContent, hct c rfl]
  | some c =>
      by_cases hp : jsParseInt c = some 0
      · have hc : ¬(c = "") := by
          intro h; subst h; rw [jsParseInt_empty] at hp; cases hp
        constructor
        · constructor
          · intro _; exact ⟨c, rfl, hp⟩
          · intro _; simp [getResponseContent, hc, hp]
        · intro hno
          exact absurd hp (hno c rfl)
      · have hcond : (!(decide (c = "")) && decide (jsParseInt c = some 0)) = false := by
          simp [hp]
        constructor
        · constructor
          · intro h
            simp [getResponseContent, hcond] at h
            split at h <;> simp_all
          · rintro ⟨c', hc', hp'⟩
            cases hc'; exact absurd hp' hp
        · intro _
          constructor
          · rintro ⟨c', hc', hs⟩
            cases hc'
            simp [getResponseContent, hcond, hs]
          · intro hct
            cases ct with
            | none => simp [getResponseContent, hcond]
            | some c' => simp [getResponseContent, hcond, hct c' rfl]

/-- Witness for C6 at concrete responses: a zero `Content-Length` gives no
content, a JSON content type gives the JSON branch, anything else the
text branch. -/
theorem c6_response_content_witness :
    getResponseContent ⟨some "0", some "application/json", "x"⟩ = .noContent ∧
    getResponseContent ⟨none, some "application/json; charset=utf-8", "b"⟩ = .json "b" ∧
    getResponseContent ⟨some "12", some "text/plain", "hello"⟩ = .text "hello" := by
  refine ⟨?_, ?_, ?_⟩
  · exact (c6_response_content ⟨some "0", some "application/json", "x"⟩).1.mpr
      ⟨"0", rfl, by decide⟩
  · exact ((c6_response_content ⟨none, some "application/json; charset=utf-8", "b"⟩).2
      (by intro cl h; cases h)).1 ⟨_, rfl, by decide⟩
  · exact ((c6_response_content ⟨some "12", some "text/plain", "hello"⟩).2
      (by intro cl h; cases h; decide)).2 (by intro ct h; cases h; decide)

/-- A successful `addEndpoint` appends the endpoint and certifies that its
declared response statuses are pairwise distinct. -/
theorem addEndpoint_ok (api api2 : Api) (e : Endpoint)
    (h : addEndpoint api e = .ok api2) :
    api2.endpoints = api.endpoints ++ [e] ∧
      (responseStatuses e.response).Nodup := by
  unfold addEndpoint at h
  split at h
  · cases h
  · split at h
    · cases h; simp_all
    · cases h

/-- An ignored field schema makes the field codec a no-op: the marker or
value passes through unvalidated and unchanged. -/
theorem parse_ignored (a : ArgValue) (onError : String → RequestEncodeError) :
    parse a (encodeS (getSchema none)) onError = .ok a := by
  cases a with
  | marker => rfl
  | val v => simp [parse, encodeS, getSchema, validateS, Except.map, Except.mapError]

/-- C3: declaring two response variants with the same status fails at Api
construction time (shown at the concrete duplicate-201 declaration and
for every declaration with duplicate statuses), and every successfully
constructed Api has pairwise-distinct response statuses within each
endpoint. -/
theorem c3_duplicate_status :
    isErr (addEndpoint apiEmpty
      ⟨"hello", "post", "/hello", ⟨none, none, none, none⟩,
        .fullArray [⟨201, none, none⟩, ⟨201, none, none⟩]⟩) = true ∧
    (∀ api e, ¬ (responseStatuses e.response).Nodup →
        isErr (addEndpoint api e) = true) ∧
    (∀ es api, buildApi es = .ok api →
        ∀ e ∈ api.endpoints, (responseStatuses e.response).Nodup) := by
  refine ⟨by decide, ?_, ?_⟩
  · intro api e hnd
    unfold addEndpoint
    split <;> rfl
  · have main : ∀ (es : List Endpoint) (acc api : Api),
        es.foldlM addEndpoint acc = .ok api →
        (∀ e ∈ acc.endpoints, (responseStatuses e.response).Nodup) →
        ∀ e ∈ api.endpoints, (responseStatuses e.response).Nodup := by
      intro es
      induction es with
      | nil =>
          intro acc api h hacc
          simp [List.foldlM, pure, Except.pure] at h
          subst h
          exact hacc
      | cons e es ih =>
          intro acc api h hacc
          simp only [List.foldlM] at h
          cases hadd : addEndpoint acc e with
          | error msg => rw [hadd] at h; cases h
          | ok acc2 =>
              rw [hadd] at h
              obtain ⟨heq, hnd⟩ := addEndpoint_ok acc acc2 e hadd
              refine ih acc2 api h ?_
              intro e2 he2
              rw [heq] at he2
              rcases List.mem_append.mp he2 with h1 | h2
              · exact hacc e2 h1
              · simp at h2; subst h2; exact hnd
    intro es api h
    exact main es apiEmpty api h (by intro e he; cases he)

/-- Witness for C3: a well-formed one-endpoint Api is constructed
successfully and its endpoint has distinct response statuses. -/
theorem c3_duplicate_status_witness :
    (responseStatuses (ResponseDecl.fullArray
      [⟨200, none, none⟩, ⟨204, none, none⟩])).Nodup :=
  c3_duplicate_status.2.2
    [⟨"hello", "post", "/hello", ⟨none, none, none, none⟩,
      .fullArray [⟨200, none, none⟩, ⟨204, none, none⟩]⟩]
    ⟨[⟨"hello", "post", "/hello", ⟨none, none, none, none⟩,
      .fullArray [⟨200, none, none⟩, ⟨204, none, none⟩]⟩]⟩
    (by rfl)
    ⟨"hello", "post", "/hello", ⟨none, none, none, none⟩,
      .fullArray [⟨200, none, none⟩, ⟨204, none, none⟩]⟩
    (by simp)

/-- C4: binding a handler to an id that names no declared endpoint fails,
binding an id that already has a handler fails, finalizing with some
declared endpoint unbound fails, and finalizing with every declared
endpoint bound succeeds. -/
theorem c4_registry :
    (∀ sb id, (∀ e ∈ sb.api.endpoints, e.id ≠ id) → isErr (handle sb id) = true) ∧
    (∀ sb id, id ∈ sb.handledIds → isErr (handle sb id) = true) ∧
    (∀ sb, (∃ e ∈ sb.api.endpoints, e.id ∉ sb.handledIds) →
        isErr (exhaustive sb) = true) ∧
    (∀ sb, (∀ e ∈ sb.api.endpoints, e.id ∈ sb.handledIds) →
        exhaustive sb = .ok sb) := by
  refine ⟨?_, ?_, ?_, ?_⟩
  · intro sb id hno
    have hc : id ∉ sb.api.endpoints.map (fun e => e.id) := by
      intro hmem
      obtain ⟨e, he, heid⟩ := List.mem_map.mp hmem
      exact hno e he heid
    simp [handle, hc, isErr]
  · intro sb id hin
    unfold handle
    split <;> rfl
  · intro sb ⟨e, he, hnot⟩
    have hc : ¬ ∀ e ∈ sb.api.endpoints, e.id ∈ sb.handledIds := by
      intro hall
      exact hnot (hall e he)
    simp [exhaustive, hc, isErr]
  · intro sb hall
    simp only [exhaustive]
    rw [if_pos hall]

/-- Witness for C4 on a concrete one-endpoint server: binding an unknown
id fails, double-binding fails, finalizing unbound fails, finalizing
bound succeeds. -/
theorem c4_registry_witness :
    isErr (handle (server ⟨[⟨"hello", "get", "/hello",
      ⟨none, none, none, none⟩, .plain .string⟩]⟩) "nonExistingOperation") = true ∧
    isErr (handle ⟨⟨[⟨"hello", "get", "/hello",
      ⟨none, none, none, none⟩, .plain .string⟩]⟩, ["hello"]⟩ "hello") = true ∧
    isErr (exhaustive (server ⟨[⟨"hello", "get", "/hello",
      ⟨none, none, none, none⟩, .plain .string⟩]⟩)) = true ∧
    exhaustive (⟨⟨[⟨"hello", "get", "/hello",
        ⟨none, none, none, none⟩, .plain .string⟩]⟩, ["hello"]⟩ : ServerBuilder) =
      .ok ⟨⟨[⟨"hello", "get", "/hello",
        ⟨none, none, none, none⟩, .plain .string⟩]⟩, ["hello"]⟩ :=
  ⟨c4_registry.1 _ "nonExistingOperation" (by decide),
   c4_registry.2.1 _ "hello" (by decide),
   c4_registry.2.2.1 _ ⟨⟨"hello", "get", "/hello",
      ⟨none, none, none, none⟩, .plain .string⟩, List.Mem.head _, by decide⟩,
   c4_registry.2.2.2 _ (by decide)⟩

/-- C5: a handler failing with kind `tag` and detail `details` renders as
the status the fixed table maps `tag` to, with body fields naming the
kind and carrying the detail, and the client reconstructs the same typed
error from that raw status/body pair through the same table. -/
theorem c5_status_table : ∀ (tag : ApiErrorTag) (details : String),
    (serverRenderError tag details).status = API_STATUS_CODES tag ∧
    (serverRenderError tag details).errorName = apiErrorTagName tag ∧
    (serverRenderError tag details).details = details ∧
    clientParseError (serverRenderError tag details) = some (tag, details) := by
  intro tag details
  refine ⟨rfl, rfl, rfl, ?_⟩
  cases tag <;> rfl

/-- C8: a request field whose declared schema is the ignored marker is
never validated in either direction: the field codec returns its input
(the absent marker stays the absent marker) and never fails, and the
whole request encoder leaves such a field untouched. -/
theorem c8_ignored_schema :
    (∀ (a : ArgValue) (onError : String → RequestEncodeError),
        parse a (encodeS (getSchema none)) onError = .ok a ∧
        parse a (decodeS (getSchema none)) onError = .ok a) ∧
    (∀ (rs : RequestSchemas) (args : RequestArgs), rs.query = none →
        ∀ out, createRequestEncoder rs (some args) = .ok out →
          out.query = args.query) := by
  constructor
  · intro a onError
    exact ⟨parse_ignored a onError, parse_ignored a onError⟩
  · rintro ⟨rq, rp, rb, rh⟩ ⟨q, p, b, hd⟩ hq out h
    simp only at hq
    subst hq
    simp only [createRequestEncoder, Option.getD, parse_ignored] at h
    split at h <;> simp_all
    subst h
    rfl

/-- Witness for C8: with every field ignored, encoding the all-marker
argument object succeeds and returns the query marker unchanged. -/
theorem c8_ignored_schema_witness :
    (⟨.marker, .marker, .marker, .marker⟩ : RequestArgs).query = ArgValue.marker :=
  c8_ignored_schema.2 ⟨none, none, none, none⟩ ⟨.marker, .marker, .marker, .marker⟩
    rfl ⟨.marker, .marker, .marker, .marker⟩ rfl

/-- C9: for every non-ignored field schema, a value that encodes
successfully decodes back from the encoded form to exactly itself (the
schemas carry no transformation), and ignored fields pass through as the
absent marker in both directions. -/
theorem c9_request_roundtrip :
    (∀ (s : SchemaAST) (v w : Value), encodeS s v = .ok w →
        w = v ∧ decodeS s w = .ok v) ∧
    (∀ (a : ArgValue) (onError : String → RequestEncodeError),
        parse a (encodeS (getSchema none)) onError = .ok a ∧
        parse a (decodeS (getSchema none)) onError = .ok a) := by
  constructor
  · intro s v w h
    have hv := validateS_ok_eq s v w h
    subst hv
    exact ⟨rfl, h⟩
  · intro a onError
    exact ⟨parse_ignored a onError, parse_ignored a onError⟩

/-- Witness for C9 on the optional-fields schema of the examples: a value
supplying only the required field and one also supplying the declared
optional field both round-trip to themselves. -/
theorem c9_request_roundtrip_witness :
    decodeS (SchemaAST.struct [("value", .number, false), ("another", .string, true)])
      (.vObj [("value", .vNum 12)]) = .ok (.vObj [("value", .vNum 12)]) ∧
    decodeS (SchemaAST.struct [("value", .number, false), ("another", .string, true)])
      (.vObj [("value", .vNum 12), ("another", .vStr "params-another-2")]) =
        .ok (.vObj [("value", .vNum 12), ("another", .vStr "params-another-2")]) := by
  constructor
  · exact (c9_request_roundtrip.1 _ _ _ (by simp [encodeS, validateS])).2
  · exact (c9_request_roundtrip.1 _ _ _ (by simp [encodeS, validateS])).2

/-- Assigning key `k` and then reading `k` on the updated-in-place branch
yields the assigned value. -/
theorem objLookup_map_assign {α : Type} (o : List (String × α)) (k : String) (v : α)
    (h : o.any (fun kv => kv.1 = k) = true) :
    objLookup (o.map (fun kv => match kv with
      | (k1, v1) => if k1 = k then (k, v) else (k1, v1))) k = some v := by
  induction o with
  | nil => cases h
  | cons kv rest ih =>
      obtain ⟨k1, v1⟩ := kv
      rw [List.map_cons]
      show objLookup ((if k1 = k then (k, v) else (k1, v1)) :: _) k = some v
      by_cases hk : k1 = k
      · rw [if_pos hk]
        simp [objLookup]
      · rw [if_neg hk]
        simp only [List.any_cons, Bool.or_eq_true, decide_eq_true_eq] at h
        rcases h with h1 | h2
        · exact absurd h1 hk
        · simp only [objLookup, if_neg hk]
          exact ih h2

/-- Assigning key `k` and then reading `k` on the appending branch yields
the assigned value. -/
theorem objLookup_append_assign {α : Type} (o : List (String × α)) (k : String) (v : α)
    (h : o.any (fun kv => kv.1 = k) = false) :
    objLookup (o ++ [(k, v)]) k = some v := by
  induction o with
  | nil => simp [objLookup]
  | cons kv rest ih =>
      obtain ⟨k1, v1⟩ := kv
      simp only [List.any_cons, Bool.or_eq_false_iff, decide_eq_false_iff_not] at h
      simp only [List.cons_append, objLookup, if_neg h.1]
      exact ih (by simp [h.2])

/-- Updating key `k` in place leaves every other key unchanged. -/
theorem objLookup_map_ne {α : Type} (o : List (String × α)) (k k2 : String) (v : α)
    (h : k2 ≠ k) :
    objLookup (o.map (fun kv => match kv with
      | (k1, v1) => if k1 = k then (k, v) else (k1, v1))) k2 = objLookup o k2 := by
  have hne : ¬ (k = k2) := fun hh => h hh.symm
  induction o with
  | nil => rfl
  | cons kv rest ih =>
      obtain ⟨k1, v1⟩ := kv
      rw [List.map_cons]
      show objLookup ((if k1 = k then (k, v) else (k1, v1)) :: _) k2 =
        objLookup ((k1, v1) :: rest) k2
      by_cases hk : k1 = k
      · rw [if_pos hk]
        subst hk
        simp only [objLookup, if_neg hne, ih]
      · rw [if_neg hk]
        simp only [objLookup, ih]

/-- Appending an entry for key `k` leaves every other key unchanged. -/
theorem objLookup_append_ne {α : Type} (o : List (String × α)) (k k2 : String) (v : α)
    (h : k2 ≠ k) :
    objLookup (o ++ [(k, v)]) k2 = objLookup o k2 := by
  have hne : ¬ (k = k2) := fun hh => h hh.symm
  induction o with
  | nil => simp [objLookup, hne]
  | cons kv rest ih =>
      obtain ⟨k1, v1⟩ := kv
      by_cases hk : k1 = k2
      · simp [objLookup, hk]
      · simp [objLookup, hk, ih]

/-- Reading the key just assigned returns the assigned value. -/
theorem objAssign_lookup_self {α : Type} (o : List (String × α)) (k : String) (v : α) :
    objLookup (objAssign o k v) k = some v := by
  unfold objAssign
  split
  · exact objLookup_map_assign o k v (by assumption)
  · rename_i hh
    simp only [Bool.not_eq_true] at hh
    exact objLookup_append_assign o k v hh

/-- Assignment does not touch other keys. -/
theorem objAssign_lookup_ne {α : Type} (o : List (String × α)) (k k2 : String) (v : α)
    (h : k2 ≠ k) : objLookup (objAssign o k v) k2 = objLookup o k2 := by
  unfold objAssign
  split
  · exact objLookup_map_ne o k k2 v h
  · exact objLookup_append_ne o k k2 v h

/-- Folding constructor entries for statuses whose key differs from `k`
leaves the lookup of `k` unchanged. -/
theorem responseUtilObj_foldl_notin (rs : List ResponseSchemaFull)
    (init : List (String × (List (String × Value) → List (String × Value))))
    (k : String)
    (h : ∀ r ∈ rs, ("response" ++ toString r.status) ≠ k) :
    objLookup (rs.foldl
      (fun obj r => objAssign obj ("response" ++ toString r.status)
        (responseConstructor r.status)) init) k = objLookup init k := by
  induction rs generalizing init with
  | nil => rfl
  | cons r0 rest ih =>
      rw [List.foldl_cons]
      rw [ih _ (fun r hr => h r (List.mem_cons_of_mem r0 hr))]
      exact objAssign_lookup_ne _ _ _ _
        (fun hh => h r0 (List.mem_cons_self r0 rest) hh.symm)

/-- With pairwise-distinct constructor names, the built object maps the
name derived from each declared status to that status. -/
theorem responseUtilObj_lookup_aux (rs : List ResponseSchemaFull)
    (init : List (String × (List (String × Value) → List (String × Value))))
    (r : ResponseSchemaFull) (hr : r ∈ rs)
    (hnd : (rs.map (fun r => "response" ++ toString r.status)).Nodup) :
    objLookup (rs.foldl
      (fun obj r => objAssign obj ("response" ++ toString r.status)
        (responseConstructor r.status)) init) ("response" ++ toString r.status) =
      some (responseConstructor r.status) := by
  induction rs generalizing init with
  | nil => cases hr
  | cons r0 rest ih =>
      rw [List.map_cons, List.nodup_cons] at hnd
      rcases List.mem_cons.mp hr with h0 | hmem
      · subst h0
        rw [List.foldl_cons]
        rw [responseUtilObj_foldl_notin rest _ _ ?hne]
        · exact objAssign_lookup_self _ _ _
        · intro x hx hkey
          exact hnd.1 (hkey ▸ List.mem_map_of_mem
            (fun r => "response" ++ toString r.status) hx)
      · rw [List.foldl_cons]
        exact ih _ hmem hnd.2

/-- The object built by `responseUtil` resolves each declared status to
its constructor. -/
theorem responseUtilObj_lookup (rs : List ResponseSchemaFull)
    (r : ResponseSchemaFull) (hr : r ∈ rs)
    (hnd : (rs.map (fun r => "response" ++ toString r.status)).Nodup) :
    objLookup (responseUtilObj rs) ("response" ++ toString r.status) =
      some (responseConstructor r.status) :=
  responseUtilObj_lookup_aux rs [] r hr hnd

/-- C7: the response pipeline selects the variant whose declared status
equals the handler output's `status` field (so a successful encode always
carries a declared status), demands a `status` unless exactly one variant
is declared, implies the single variant's status when the field is
omitted, and encodes the selected content and headers: with variants 200
(number content) and 204 (no content), status 200 with matching content
round-trips and status 204 yields empty content. -/
theorem c7_variant_selection :
    (∀ (variants : List ResponseVariantSchemas) (out : HandlerOutput)
        (r : EncodedResponse) (s : Nat),
        out.status = some s → encodeResponse variants out = .ok r →
          r.status = s ∧ ∃ v ∈ variants, v.status = s) ∧
    (∀ variants out, out.status = none → (∀ v, variants ≠ [v]) →
        isErr (encodeResponse variants out) = true) ∧
    (∀ (v : ResponseVariantSchemas) (out : HandlerOutput) (r : EncodedResponse),
        out.status = none → encodeResponse [v] out = .ok r →
          r.status = v.status) ∧
    encodeResponse [⟨200, some .number, none⟩, ⟨204, none, none⟩]
        ⟨some 200, some (.vNum 12), none⟩ = .ok ⟨200, some (.vNum 12), none⟩ ∧
    encodeResponse [⟨200, some .number, none⟩, ⟨204, none, none⟩]
        ⟨some 204, none, none⟩ = .ok ⟨204, none, none⟩ ∧
    encodeResponse [⟨200, some .number, none⟩] ⟨none, some (.vNum 12), none⟩ =
        .ok ⟨200, some (.vNum 12), none⟩ := by
  refine ⟨?_, ?_, ?_, ?_, ?_, ?_⟩
  · intro variants out r s hs h
    unfold encodeResponse at h
    have hsel : selectStatus variants out = .ok s := by
      unfold selectStatus; rw [hs]
    rw [hsel] at h
    split at h
    · cases h
    · rename_i st heq
      have hst := Except.ok.inj heq
      subst hst
      split at h
      · cases h
      · rename_i v heq2
        have hv := List.mem_of_find?_eq_some heq2
        have hvs : v.status = s := by simpa using List.find?_some heq2
        refine ⟨?_, v, hv, hvs⟩
        split at h
        · cases h; rfl
        · cases h
        · cases h
  · intro variants out hs hne
    unfold encodeResponse selectStatus
    rw [hs]
    match variants, hne with
    | [], _ => rfl
    | [v], hne => exact absurd rfl (hne v)
    | v1 :: v2 :: rest, _ => rfl
  · intro v out r hs h
    unfold encodeResponse at h
    have hsel : selectStatus [v] out = .ok v.status := by
      unfold selectStatus; rw [hs]
    rw [hsel] at h
    split at h
    · cases h
    · rename_i st heq
      have hst := Except.ok.inj heq
      subst hst
      split at h
      · cases h
      · rename_i v2 heq2
        split at h
        · cases h; rfl
        · cases h
        · cases h
  · simp [encodeResponse, selectStatus, encodeContentPart, encodeS, validateS,
      Except.map, List.find?]
  · simp [encodeResponse, selectStatus, encodeContentPart, encodeS, validateS,
      Except.map, List.find?]
  · simp [encodeResponse, selectStatus, encodeContentPart, encodeS, validateS,
      Except.map, List.find?]

/-- Witness for C7 at the two-variant declaration of the examples:
status 200 selects the 200 variant among the declared ones, an empty
variant list with no status fails, and the single-variant case implies
its status. -/
theorem c7_variant_selection_witness :
    ((⟨200, some (Value.vNum 12), none⟩ : EncodedResponse).status = 200 ∧
      ∃ v ∈ [(⟨200, some SchemaAST.number, none⟩ : ResponseVariantSchemas),
          ⟨204, none, none⟩], v.status = 200) ∧
    isErr (encodeResponse [] ⟨none, none, none⟩) = true ∧
    (⟨200, some (Value.vNum 12), none⟩ : EncodedResponse).status =
      (⟨200, some SchemaAST.number, none⟩ : ResponseVariantSchemas).status :=
  ⟨c7_variant_selection.1 [⟨200, some .number, none⟩, ⟨204, none, none⟩]
      ⟨some 200, some (.vNum 12), none⟩ ⟨200, some (.vNum 12), none⟩ 200 rfl
      (by simp [encodeResponse, selectStatus, encodeContentPart, encodeS,
        validateS, Except.map, List.find?]),
   c7_variant_selection.2.1 [] ⟨none, none, none⟩ rfl
      (fun v h => List.noConfusion h),
   c7_variant_selection.2.2.1 ⟨200, some .number, none⟩
      ⟨none, some (.vNum 12), none⟩ ⟨200, some (.vNum 12), none⟩ rfl
      (by simp [encodeResponse, selectStatus, encodeContentPart, encodeS,
        validateS, Except.map, List.find?])⟩

/-- C10: `responseUtil` fails when no endpoint of the Api has the id,
returns an object with no constructors when the found endpoint declares a
plain response schema, and otherwise returns one constructor per declared
full response shape, named `response` followed by the status digits,
mapping `data` to the object holding that literal status with the fields
of `data` spread onto it; a single full shape acts as its one-element
array. -/
theorem c10_responseUtil :
    (∀ api id, (∀ e ∈ api.endpoints, e.id ≠ id) →
        isErr (responseUtil api id) = true) ∧
    (∀ api id e s, api.endpoints.find? (fun x => x.id = id) = some e →
        e.response = .plain s → responseUtil api id = .ok []) ∧
    (∀ api id e rs, api.endpoints.find? (fun x => x.id = id) = some e →
        e.response = .fullArray rs →
        responseUtil api id = .ok (responseUtilObj rs) ∧
        ((rs.map (fun r => "response" ++ toString r.status)).Nodup →
          ∀ r ∈ rs, ∃ f,
            objLookup (responseUtilObj rs) ("response" ++ toString r.status) = some f ∧
            ∀ data, f data =
              objSpread [("status", Value.vNum (r.status : Int))] data)) ∧
    (∀ api id e r, api.endpoints.find? (fun x => x.id = id) = some e →
        e.response = .full r → responseUtil api id = .ok (responseUtilObj [r])) := by
  refine ⟨?_, ?_, ?_, ?_⟩
  · intro api id h
    unfold responseUtil
    rw [List.find?_eq_none.mpr (by intro e he; simpa using h e he)]
    rfl
  · intro api id e s hfind hresp
    unfold responseUtil
    rw [hfind]
    simp [hresp]
  · intro api id e rs hfind hresp
    constructor
    · unfold responseUtil
      rw [hfind]
      simp [hresp]
    · intro hnd r hr
      exact ⟨responseConstructor r.status,
        responseUtilObj_lookup rs r hr hnd, fun data => rfl⟩
  · intro api id e r hfind hresp
    unfold responseUtil
    rw [hfind]
    simp [hresp]

/-- Witness for C10 on a concrete two-variant endpoint: the derived object
holds a constructor for status 201 that merges the literal status with
the supplied data. -/
theorem c10_responseUtil_witness :
    ∃ f, objLookup (responseUtilObj [⟨201, none, none⟩, ⟨204, none, none⟩])
        ("response" ++ toString (201 : Nat)) = some f ∧
      ∀ data, f data = objSpread [("status", Value.vNum ((201 : Nat) : Int))] data :=
  (c10_responseUtil.2.2.1
    ⟨[⟨"hello", "post", "/hello", ⟨none, none, none, none⟩,
      .fullArray [⟨201, none, none⟩, ⟨204, none, none⟩]⟩]⟩
    "hello"
    ⟨"hello", "post", "/hello", ⟨none, none, none, none⟩,
      .fullArray [⟨201, none, none⟩, ⟨204, none, none⟩]⟩
    [⟨201, none, none⟩, ⟨204, none, none⟩]
    (by rfl) rfl).2 (by decide) ⟨201, none, none⟩ (List.Mem.head _)

end EffectHttp
